import Mathlib

/-!
Verification development for `convert_txt_to_zwo.py`: a shallow embedding of
the text-to-interval-model translation (token extraction, line classification,
ramp stepping, interval expansion, zone classification, document
serialization), together with theorems settling the specified properties.

Python strings are embedded as `List Char`; Python floats arising from the
power arithmetic are embedded as exact rationals `ℚ` (every power in the
program is a small integer divided by 100 and the claims concern the algebraic
identities of those values); Python integers are `ℕ` (all integers here are
results of `\d+` matches or products of them, hence non-negative).  Code that
can raise an exception is embedded with `Option`.
-/

namespace ConvertTxtToZwo

/-- Characters of a Python string. -/
abbrev Str := List Char

/-- Python regex `\d`, restricted to the ASCII digits that appear in workout
files (Python would additionally accept non-ASCII Unicode decimal digits). -/
def isDigitCh (c : Char) : Bool := c.isDigit

/-- Python regex `\s` / `str.strip` whitespace, restricted to the ASCII
whitespace that appears in workout files. -/
def isSpaceCh (c : Char) : Bool := c = ' ' || c = '\t' || c = '\n' || c = '\r'

/-- Numeric value of a run of decimal digit characters (Python `int(...)` on
the captured group). -/
def digitsToNat (ds : Str) : ℕ := ds.foldl (fun a c => 10 * a + (c.toNat - 48)) 0

/-- Python substring containment `needle in hay`: some position of `hay`
starts with `needle`. -/
def containsSub (needle : Str) : Str → Bool
  | [] => needle.isEmpty
  | c :: tl => needle.isPrefixOf (c :: tl) || containsSub needle tl

/-- `re.search` driver: try the anchored matcher `m` at each position of the
string, left to right, returning the first success.  (All of the patterns
below require at least one character, so the end-of-string position can never
match and is not tried.) -/
def searchAux {α : Type} (m : Str → Option α) : Str → Option α
  | [] => none
  | c :: tl =>
    match m (c :: tl) with
    | some a => some a
    | none => searchAux m tl

/-- Anchored `\d+` (greedy): the maximal digit run starting here, with the
remainder of the string; fails if the first character is not a digit. -/
def matchDigits (s : Str) : Option (Str × Str) :=
  let ds := s.takeWhile isDigitCh
  if ds.isEmpty then none else some (ds, s.dropWhile isDigitCh)

def kwMin : Str := "min".toList
def kwSec : Str := "sec".toList
def kwFrom : Str := "from".toList
def kwTo : Str := "to".toList
def kwFreeRide : Str := "free ride".toList
def kwFTP : Str := "FTP".toList
def kwRpm : Str := "rpm".toList

/-- Anchored `(\d+)(min|sec)`; returns `group(0)` (digits plus unit).  The
digit run is necessarily maximal: a shorter backtracked run would leave a
digit where `min|sec` must start. -/
def matchDuration (s : Str) : Option Str :=
  match matchDigits s with
  | none => none
  | some (ds, rest) =>
    if kwMin.isPrefixOf rest then some (ds ++ kwMin)
    else if kwSec.isPrefixOf rest then some (ds ++ kwSec)
    else none

/-- Anchored `(\d+)%\s*FTP`; returns `group(1)` as a number.  The whitespace
run after `%` is necessarily maximal: `F` is not whitespace. -/
def matchPowerFtp (s : Str) : Option ℕ :=
  match matchDigits s with
  | none => none
  | some (ds, rest) =>
    match rest with
    | '%' :: r2 =>
      if kwFTP.isPrefixOf (r2.dropWhile isSpaceCh) then some (digitsToNat ds) else none
    | _ => none

/-- Anchored `from\s+(\d+)`; returns `group(1)` as a number. -/
def matchFromPower (s : Str) : Option ℕ :=
  if kwFrom.isPrefixOf s then
    match s.drop 4 with
    | c :: tl =>
      if isSpaceCh c then
        match matchDigits ((c :: tl).dropWhile isSpaceCh) with
        | some (ds, _) => some (digitsToNat ds)
        | none => none
      else none
    | [] => none
  else none

/-- Anchored `to\s+(\d+)%`; returns `group(1)` as a number. -/
def matchToPower (s : Str) : Option ℕ :=
  if kwTo.isPrefixOf s then
    match s.drop 2 with
    | c :: tl =>
      if isSpaceCh c then
        match matchDigits ((c :: tl).dropWhile isSpaceCh) with
        | some (ds, rest) =>
          match rest with
          | '%' :: _ => some (digitsToNat ds)
          | _ => none
        | none => none
      else none
    | [] => none
  else none

/-- Anchored `(\d+)%`; returns `group(1)` as a number. -/
def matchPercentage (s : Str) : Option ℕ :=
  match matchDigits s with
  | none => none
  | some (ds, rest) =>
    match rest with
    | '%' :: _ => some (digitsToNat ds)
    | _ => none

/-- Anchored `(\d+)rpm`; returns `group(1)` as a number. -/
def matchRpm (s : Str) : Option ℕ :=
  match matchDigits s with
  | none => none
  | some (ds, rest) => if kwRpm.isPrefixOf rest then some (digitsToNat ds) else none

/-- Anchored `(\d+)x\s+`; returns `group(1)` as a number. -/
def matchRepeat (s : Str) : Option ℕ :=
  match matchDigits s with
  | none => none
  | some (ds, rest) =>
    match rest with
    | 'x' :: c :: _ => if isSpaceCh c then some (digitsToNat ds) else none
    | _ => none

/-- `REGEX_PATTERNS["duration"].search(line)`, yielding `group(0)`. -/
def durationSearch (l : Str) : Option Str := searchAux matchDuration l

/-- `REGEX_PATTERNS["power_ftp"].search(line)`, yielding `group(1)`. -/
def powerFtpSearch (l : Str) : Option ℕ := searchAux matchPowerFtp l

/-- `REGEX_PATTERNS["from_power"].search(line)`, yielding `group(1)`. -/
def fromPowerSearch (l : Str) : Option ℕ := searchAux matchFromPower l

/-- `REGEX_PATTERNS["to_power"].search(line)`, yielding `group(1)`. -/
def toPowerSearch (l : Str) : Option ℕ := searchAux matchToPower l

/-- `REGEX_PATTERNS["percentage"].search(line)`, yielding `group(1)`. -/
def percentageSearch (l : Str) : Option ℕ := searchAux matchPercentage l

/-- `REGEX_PATTERNS["rpm"].search(line)`, yielding `group(1)`. -/
def rpmSearch (l : Str) : Option ℕ := searchAux matchRpm l

/-- `REGEX_PATTERNS["repeat"].search(line)`, yielding `group(1)`. -/
def repeatSearch (l : Str) : Option ℕ := searchAux matchRepeat l

/-- `parse_duration_to_seconds` (source lines 98-121): `"min" in s` scales the
first digit run by 60, else `"sec" in s` takes it as seconds, else 0. -/
def parse_duration_to_seconds (s : Str) : ℕ :=
  if containsSub kwMin s then
    match searchAux matchDigits s with
    | some (ds, _) => digitsToNat ds * 60
    | none => 0
  else if containsSub kwSec s then
    match searchAux matchDigits s with
    | some (ds, _) => digitsToNat ds
    | none => 0
  else 0

/-- `parse_power_percentage` (source lines 124-144): first `(\d+)%` occurrence
divided by 100, defaulting to `DEFAULT_RECOVERY_POWER = 0.6`. -/
def parse_power_percentage (l : Str) : ℚ :=
  match percentageSearch l with
  | some n => (n : ℚ) / 100
  | none => 6 / 10

/-- `parse_cadence` (source lines 147-167): first `(\d+)rpm` occurrence. -/
def parse_cadence (l : Str) : Option ℕ := rpmSearch l

/-- The numeral of a duration token such as `"3min"`: the value of its
leading digit run. -/
def durTokenValue (dm : Str) : ℕ := digitsToNat (dm.takeWhile isDigitCh)

/-- Python `str.lower()` (ASCII). -/
def lowerStr (l : Str) : Str := l.map Char.toLower

/-- One entry of the visualization model built by `parse_workout_segments`:
the five dict shapes appended there (source lines 437-528), with the keys
each shape actually carries. -/
inductive Segment where
  | free_ride (duration : ℕ) (power : ℚ) (cadence : Option ℕ)
  | interval_on (duration : ℕ) (power : ℚ) (cadence : Option ℕ)
  | interval_off (duration : ℕ) (power : ℚ) (cadence : Option ℕ)
  | ramp (duration : ℕ) (power_low power_high : ℚ) (cadence : Option ℕ)
  | steady (duration : ℕ) (power : ℚ) (cadence : Option ℕ)
  deriving DecidableEq, Repr

/-- The `duration` key, common to every segment dict. -/
def Segment.durationOf : Segment → ℕ
  | .free_ride d _ _ => d
  | .interval_on d _ _ => d
  | .interval_off d _ _ => d
  | .ramp d _ _ _ => d
  | .steady d _ _ => d

/-- The ramp stepping inlined in `process_workout_line` (source lines
214-233): `steps = max(1, duration // 15)`, each step of real length
`duration / steps`; the single step of a short ramp averages the endpoints,
otherwise step `i` interpolates linearly via `i / (steps - 1)`.  Returns the
`(step_duration, power)` pairs of the generated `SteadyState` elements. -/
def rampStepsZwo (duration : ℕ) (from_power to_power : ℚ) : List (ℚ × ℚ) :=
  let steps := max 1 (duration / 15)
  let step_duration : ℚ := (duration : ℚ) / (steps : ℚ)
  (List.range steps).map (fun (i : ℕ) =>
    (step_duration,
      if steps = 1 then (from_power + to_power) / 2
      else from_power + (to_power - from_power) * ((i : ℚ) / ((steps - 1 : ℕ) : ℚ))))

/-- The ramp stepping inlined in `generate_workout_png` (source lines
358-380, the branch taken for a segment with `power_low != power_high`):
`steps = max(1, duration // 15)`, each step of length `duration / steps` and
power `power_low + (power_high - power_low) * (i / (steps - 1))`.  There is
no `steps == 1` special case in this call site: when `steps == 1` the first
iteration evaluates `0 / 0` and raises `ZeroDivisionError`, embedded here as
`none`. -/
def rampStepsPng (duration : ℕ) (power_low power_high : ℚ) : Option (List (ℚ × ℚ)) :=
  let steps := max 1 (duration / 15)
  if steps = 1 then none
  else
    some ((List.range steps).map (fun (i : ℕ) =>
      ((duration : ℚ) / (steps : ℚ),
        power_low + (power_high - power_low) * ((i : ℚ) / ((steps - 1 : ℕ) : ℚ)))))

/-- The per-line body of the loop in `parse_workout_segments` (source lines
441-526): the segments appended for one line, in order.  Empty lines and
lines without a duration match contribute nothing; free-ride detection comes
first with the fixed display power `FREE_RIDE_VISUALIZATION_POWER = 0.65`;
then a `(\d+)%\s*FTP` match is required; a repeat match expands to
on/off pairs with `DEFAULT_INTERVAL_OFF_POWER = 0.55` and no off-cadence;
otherwise a line holding both `"from"` and `"to"` is a ramp only when both
numeral matches succeed (nothing is appended when one is missing); otherwise
a steady segment. -/
def segmentsOfLine (line : Str) : List Segment :=
  if line.isEmpty then []
  else
    match durationSearch line with
    | none => []
    | some dm =>
      let duration := parse_duration_to_seconds dm
      let cadence := parse_cadence line
      if containsSub kwFreeRide (lowerStr line) then
        [Segment.free_ride duration (13 / 20) cadence]
      else
        match powerFtpSearch line with
        | none => []
        | some _ =>
          let power := parse_power_percentage line
          match repeatSearch line with
          | some n =>
            (List.range n).flatMap (fun _ =>
              [Segment.interval_on duration power cadence,
               Segment.interval_off duration (11 / 20) none])
          | none =>
            if containsSub kwFrom line && containsSub kwTo line then
              match fromPowerSearch line, toPowerSearch line with
              | some f, some t =>
                [Segment.ramp duration ((f : ℚ) / 100) ((t : ℚ) / 100) cadence]
              | _, _ => []
            else [Segment.steady duration power cadence]

/-- `parse_workout_segments` (source lines 437-528). -/
def parse_workout_segments (lines : List Str) : List Segment :=
  lines.flatMap segmentsOfLine

/-- One return value of `process_workout_line`: the four element shapes it
can produce (a stepped ramp is the newline-join of one `SteadyState` element
per sub-step, kept here as the list of `(step_duration, power)` pairs). -/
inductive ZwoElement where
  | freeRide (duration : ℕ) (cadence : Option ℕ)
  | rampSteady (steps : List (ℚ × ℚ)) (cadence : Option ℕ)
  | intervals (repeatCount : ℕ) (onDuration offDuration : ℕ)
      (onPower offPower : ℚ) (cadence : Option ℕ)
  | steady (duration : ℕ) (power : ℚ) (cadence : Option ℕ)
  deriving DecidableEq, Repr

/-- The ramp block of `process_workout_line` (source lines 205-233): inside
`if "from" in line and "to" in line`, a stepped-ramp element is returned only
when both numeral matches succeed; otherwise control falls through past the
block. -/
def rampAttempt (line : Str) (duration : ℕ) (cadence : Option ℕ) : Option ZwoElement :=
  if containsSub kwFrom line && containsSub kwTo line then
    match fromPowerSearch line, toPowerSearch line with
    | some f, some t =>
      some (ZwoElement.rampSteady (rampStepsZwo duration ((f : ℚ) / 100) ((t : ℚ) / 100)) cadence)
    | _, _ => none
  else none

/-- `process_workout_line` (source lines 183-253).  `None` for an empty line,
a line without a duration match, or a non-free-ride line without a
`(\d+)%\s*FTP` match; free ride wins first; then the ramp block; when the
ramp block falls through (no `"from"`/`"to"`, or a missing numeral match) the
line is classified as a repeat interval or a steady state using the line's
first bare percentage. -/
def process_workout_line (line : Str) : Option ZwoElement :=
  if line.isEmpty then none
  else
    match durationSearch line with
    | none => none
    | some dm =>
      let duration := parse_duration_to_seconds dm
      let cadence := parse_cadence line
      if containsSub kwFreeRide (lowerStr line) then
        some (ZwoElement.freeRide duration cadence)
      else
        match powerFtpSearch line with
        | none => none
        | some _ =>
          match rampAttempt line duration cadence with
          | some e => some e
          | none =>
            let power := parse_power_percentage line
            match repeatSearch line with
            | some n =>
              some (ZwoElement.intervals n duration duration power (11 / 20) cadence)
            | none => some (ZwoElement.steady duration power cadence)

/-- One entry of `POWER_ZONES` (source lines 63-74). -/
structure Zone where
  lo : ℚ
  hi : ℚ
  color : Str
  name : Str
  deriving DecidableEq, Repr

/-- `POWER_ZONES` (source lines 63-74), in dict insertion order. -/
def POWER_ZONES : List Zone :=
  [⟨0, 11 / 20, "#4A90E2".toList, "Recovery".toList⟩,
   ⟨11 / 20, 3 / 4, "#7ED321".toList, "Endurance".toList⟩,
   ⟨3 / 4, 9 / 10, "#F5A623".toList, "Tempo".toList⟩,
   ⟨9 / 10, 21 / 20, "#D0021B".toList, "Threshold".toList⟩,
   ⟨21 / 20, 6 / 5, "#9013FE".toList, "VO2Max".toList⟩,
   ⟨6 / 5, 2, "#BD10E0".toList, "Neuromuscular".toList⟩]

/-- `DEFAULT_HIGH_POWER_COLOR` (source line 75). -/
def DEFAULT_HIGH_POWER_COLOR : Str := "#50E3C2".toList

/-- `get_power_color` (source lines 301-307): the first zone whose half-open
range `[lo, hi)` holds `power`, else the fallback color. -/
def get_power_color (power : ℚ) : Str :=
  match POWER_ZONES.find? (fun z => decide (z.lo ≤ power) && decide (power < z.hi)) with
  | some z => z.color
  | none => DEFAULT_HIGH_POWER_COLOR

/-- The zone classifier as the spec's words state it (section 4.5): test the
six half-open ranges in order, first match wins, fallback at and above 2.0.
Stated independently of `POWER_ZONES` so that `get_power_color` can be proved
to refine it. -/
def classifySpec (power : ℚ) : Str :=
  if power < 11 / 20 then "#4A90E2".toList
  else if power < 3 / 4 then "#7ED321".toList
  else if power < 9 / 10 then "#F5A623".toList
  else if power < 21 / 20 then "#D0021B".toList
  else if power < 6 / 5 then "#9013FE".toList
  else if power < 2 then "#BD10E0".toList
  else DEFAULT_HIGH_POWER_COLOR

/-- Decimal digits of a natural number (Python `str`/`repr` of an `int`). -/
def natStr (n : ℕ) : Str := (toString n).toList

/-- Python `repr` of the float `n / 100` as used by the f-strings
`f'Power="{power}"'` (steady and interval powers are always integer
percentages divided by 100, and `DEFAULT_INTERVAL_OFF_POWER = 0.55` is 55
hundredths): the shortest round-tripping decimal, which for hundredths is the
exact value with trailing zeros dropped but at least one fractional digit. -/
def pyReprHundredths (n : ℕ) : Str :=
  natStr (n / 100) ++ '.' ::
    (if n % 100 = 0 then natStr 0
     else if n % 100 % 10 = 0 then natStr (n % 100 / 10)
     else if n % 100 < 10 then '0' :: natStr (n % 100)
     else natStr (n % 100))

/-- Hundredths numerator of a power value `q` produced by the classifier
(`q` is always `k / 100` with `k : ℕ` there, so this is exact). -/
def hundredthsOf (q : ℚ) : ℕ := (⌊q * 100⌋).toNat

/-- Python `f'{power:.3f}'` on the ramp-step powers: fixed three decimal
digits.  Exact decimal ties are resolved here upward; Python resolves them by
the underlying binary float, a hair above or below the exact rational — no
claim in this development depends on the tie direction. -/
def pyFormat3 (q : ℚ) : Str :=
  let m := (⌊q * 1000 + 1 / 2⌋).toNat
  natStr (m / 1000) ++ '.' ::
    ((if m % 1000 < 10 then ['0', '0'] else if m % 1000 < 100 then ['0'] else []) ++
      natStr (m % 1000))

/-- `f' Cadence="{cadence}"' if cadence else ""` (source line 194): Python
truthiness drops the attribute for `None` and for a cadence of `0`. -/
def cadenceAttr (cadence : Option ℕ) : Str :=
  match cadence with
  | some c => if c ≠ 0 then " Cadence=\"".toList ++ natStr c ++ ['"'] else []
  | none => []

/-- Render one element of `process_workout_line` to its markup text (the
f-strings at source lines 198, 228-231, 242-247, 250-253; a stepped ramp is
the newline-join of its per-step `SteadyState` lines, each step duration
truncated by `int(...)`). -/
def renderElement : ZwoElement → Str
  | .freeRide d cad =>
    "        <FreeRide Duration=\"".toList ++ natStr d ++ ['"'] ++ cadenceAttr cad ++
      " />".toList
  | .rampSteady steps cad =>
    List.intercalate ['\n']
      (steps.map (fun st =>
        "        <SteadyState Duration=\"".toList ++ natStr (⌊st.1⌋).toNat ++
          "\" Power=\"".toList ++ pyFormat3 st.2 ++ ['"'] ++ cadenceAttr cad ++
          " />".toList))
  | .intervals n onD offD onP offP cad =>
    "        <IntervalsT Repeat=\"".toList ++ natStr n ++
      "\" OnDuration=\"".toList ++ natStr onD ++
      "\" OffDuration=\"".toList ++ natStr offD ++
      "\" OnPower=\"".toList ++ pyReprHundredths (hundredthsOf onP) ++
      "\" OffPower=\"".toList ++ pyReprHundredths (hundredthsOf offP) ++ ['"'] ++
      cadenceAttr cad ++ " />".toList
  | .steady d p cad =>
    "        <SteadyState Duration=\"".toList ++ natStr d ++
      "\" Power=\"".toList ++ pyReprHundredths (hundredthsOf p) ++ ['"'] ++
      cadenceAttr cad ++ " />".toList

/-- `create_zwo_header` (source lines 170-180). -/
def create_zwo_header (workout_name : Str) : List Str :=
  ["<workout_file>".toList,
   "    <author>Converted from TXT</author>".toList,
   "    <name>".toList ++ workout_name ++ "</name>".toList,
   "    <description>Auto-converted workout from text format</description>".toList,
   "    <sportType>bike</sportType>".toList,
   "    <tags/>".toList,
   "    <workout>".toList]

/-- Python `str.strip()` (ASCII whitespace). -/
def stripStr (s : Str) : Str :=
  ((s.dropWhile isSpaceCh).reverse.dropWhile isSpaceCh).reverse

/-- The training-file bytes written by `convert_txt_to_zwo` (source lines
256-277) as a function of the workout name and the raw input lines: strip
each line and drop the blank ones, emit the header, one rendered element per
line that classifies (a returned element string is never empty, so Python's
`if element:` is `element is not None`), the footer, all joined with
newlines. -/
def convert_txt_to_zwo (workout_name : Str) (raw_lines : List Str) : Str :=
  let lines := (raw_lines.map stripStr).filter (fun l => !l.isEmpty)
  List.intercalate ['\n']
    (create_zwo_header workout_name ++
      lines.filterMap (fun l => (process_workout_line l).map renderElement) ++
      ["    </workout>".toList, "</workout_file>".toList])

/-! ## Helper lemmas -/

/-- A successful search needs a non-empty string. -/
lemma isEmpty_false_of_searchAux {α : Type} {m : Str → Option α} {l : Str} {a : α}
    (h : searchAux m l = some a) : l.isEmpty = false := by
  cases l with
  | nil => simp [searchAux] at h
  | cons c tl => rfl

/-! ## C8: the serialized training file is a deterministic function of the
input lines and the workout name -/

/-- C8: running the conversion twice on the same workout name and the same
raw input lines produces byte-identical training-file content: the content is
a pure function of those two inputs alone (no time, randomness, or other
hidden dependency appears in the embedding of `convert_txt_to_zwo`). -/
theorem c8_conversion_deterministic (name1 name2 : Str) (lines1 lines2 : List Str)
    (hn : name1 = name2) (hl : lines1 = lines2) :
    convert_txt_to_zwo name1 lines1 = convert_txt_to_zwo name2 lines2 := by
  subst hn; subst hl; rfl

/-- Witness for C8 at a concrete workout. -/
theorem c8_conversion_deterministic_witness :
    convert_txt_to_zwo ("test".toList)
        [("10min from 50% to 80% FTP".toList), ("4x 30sec @ 105rpm, 85% FTP".toList)] =
      convert_txt_to_zwo ("test".toList)
        [("10min from 50% to 80% FTP".toList), ("4x 30sec @ 105rpm, 85% FTP".toList)] :=
  c8_conversion_deterministic _ _ _ _ rfl rfl

/-! ## C1: the two ramp-stepping call sites -/

/-- C1 (code bug): for ramps of at least 30 seconds the stepping inlined in
`process_workout_line` and the stepping inlined in `generate_workout_png`
produce identical `(step_duration, power)` sequences; but for a ramp with
`steps == 1` (duration below 30 seconds) the training-file call site emits
one averaged step while the visualization call site evaluates `0 / 0` and
raises `ZeroDivisionError` — it is not well-defined there, contrary to the
claim. -/
theorem c1_ramp_stepping_call_sites :
    (∀ (d : ℕ) (pl ph : ℚ), 30 ≤ d → rampStepsPng d pl ph = some (rampStepsZwo d pl ph)) ∧
    rampStepsPng 20 (1 / 2) (4 / 5) = none ∧
    rampStepsZwo 20 (1 / 2) (4 / 5) = [((20 : ℚ), 13 / 20)] ∧
    parse_workout_segments [("20sec from 50% to 80% FTP".toList)] =
      [Segment.ramp 20 (1 / 2) (4 / 5) none] := by
  refine ⟨?_, by norm_num [rampStepsPng], by norm_num [rampStepsZwo, List.range_succ], ?_⟩
  · intro d pl ph hd
    have h2 : 2 ≤ d / 15 := (Nat.le_div_iff_mul_le (by norm_num)).2 (by omega)
    have hne : ¬ max 1 (d / 15) = 1 := by omega
    simp only [rampStepsPng, rampStepsZwo, if_neg hne]
  · have e : parse_workout_segments [("20sec from 50% to 80% FTP".toList)] =
        [Segment.ramp 20 (((50 : ℕ) : ℚ) / 100) (((80 : ℕ) : ℚ) / 100) none] := rfl
    rw [e]
    norm_num

/-- Witness for C1's universally quantified part at a 60-second ramp. -/
theorem c1_ramp_stepping_call_sites_witness :
    rampStepsPng 60 (1 / 2) (4 / 5) = some (rampStepsZwo 60 (1 / 2) (4 / 5)) :=
  c1_ramp_stepping_call_sites.1 60 (1 / 2) (4 / 5) (by norm_num)

/-! ## C4: the training-file ramp stepper -/

/-- C4: the stepper of `process_workout_line` produces
`steps = max(1, ⌊D / 15⌋)` sub-steps, each of real length `D / steps`; for
`steps > 1` sub-step `i` has power `p_low + (p_high - p_low) * i / (steps - 1)`
so the first power is `p_low` and the last is `p_high`; for `steps == 1` the
single sub-step averages the endpoints. -/
theorem c4_ramp_stepper_correct (d : ℕ) (pl ph : ℚ) :
    (rampStepsZwo d pl ph).length = max 1 (d / 15) ∧
    (∀ st ∈ rampStepsZwo d pl ph, st.1 = (d : ℚ) / ((max 1 (d / 15) : ℕ) : ℚ)) ∧
    (1 < max 1 (d / 15) → ∀ i : ℕ, i < max 1 (d / 15) →
      ((rampStepsZwo d pl ph)[i]?).map Prod.snd =
        some (pl + (ph - pl) * ((i : ℚ) / ((max 1 (d / 15) - 1 : ℕ) : ℚ)))) ∧
    (1 < max 1 (d / 15) →
      ((rampStepsZwo d pl ph)[0]?).map Prod.snd = some pl ∧
      ((rampStepsZwo d pl ph)[max 1 (d / 15) - 1]?).map Prod.snd = some ph) ∧
    (max 1 (d / 15) = 1 → rampStepsZwo d pl ph = [((d : ℚ), (pl + ph) / 2)]) := by
  have hget : ∀ i : ℕ, i < max 1 (d / 15) → ¬ max 1 (d / 15) = 1 →
      ((rampStepsZwo d pl ph)[i]?).map Prod.snd =
        some (pl + (ph - pl) * ((i : ℚ) / ((max 1 (d / 15) - 1 : ℕ) : ℚ))) := by
    intro i hi hne
    simp only [rampStepsZwo, List.getElem?_map, List.getElem?_range, hi, if_true,
      Option.map_some', if_neg hne]
  have hlen : (rampStepsZwo d pl ph).length = max 1 (d / 15) := by
    simp only [rampStepsZwo, List.length_map, List.length_range]
  refine ⟨hlen, ?_, ?_, ?_, ?_⟩
  · intro st hst
    simp only [rampStepsZwo, List.mem_map, List.mem_range] at hst
    obtain ⟨i, _, rfl⟩ := hst
    rfl
  · intro hgt i hi
    exact hget i hi (by omega)
  · intro hgt
    have hcast : ((max 1 (d / 15) - 1 : ℕ) : ℚ) ≠ 0 := by
      exact_mod_cast Nat.sub_ne_zero_of_lt hgt
    constructor
    · rw [hget 0 (by omega) (by omega)]
      norm_num
    · rw [hget (max 1 (d / 15) - 1) (by omega) (by omega)]
      rw [div_self hcast]
      ring_nf
  · intro h1
    simp [rampStepsZwo, h1, List.range_succ]

/-- Witness for C4 at a 60-second ramp (4 steps) and a 20-second ramp
(1 step). -/
theorem c4_ramp_stepper_correct_witness :
    ((rampStepsZwo 60 (1 / 2) (4 / 5)).length = max 1 (60 / 15) ∧
      ((rampStepsZwo 60 (1 / 2) (4 / 5))[0]?).map Prod.snd = some (1 / 2) ∧
      ((rampStepsZwo 60 (1 / 2) (4 / 5))[max 1 (60 / 15) - 1]?).map Prod.snd = some (4 / 5)) ∧
    rampStepsZwo 20 (1 / 2) (4 / 5) = [((20 : ℚ), (1 / 2 + 4 / 5) / 2)] := by
  refine ⟨⟨(c4_ramp_stepper_correct 60 (1 / 2) (4 / 5)).1, ?_, ?_⟩, ?_⟩
  · exact ((c4_ramp_stepper_correct 60 (1 / 2) (4 / 5)).2.2.2.1 (by norm_num)).1
  · exact ((c4_ramp_stepper_correct 60 (1 / 2) (4 / 5)).2.2.2.1 (by norm_num)).2
  · have h := (c4_ramp_stepper_correct 20 (1 / 2) (4 / 5)).2.2.2.2 (by norm_num)
    rw [h]
    norm_num

/-! ## C6: zone classification -/

/-- C6: on non-negative powers `get_power_color` agrees with the ordered
half-open-range classifier the spec describes (first match of
recovery [0,0.55), endurance [0.55,0.75), tempo [0.75,0.90),
threshold [0.90,1.05), vo2max [1.05,1.20), neuromuscular [1.20,2.0)); at
each boundary the higher zone wins, and any power at or above 2.0 gets the
fallback high-power color. -/
theorem c6_zone_classification (p : ℚ) (hp : 0 ≤ p) :
    get_power_color p = classifySpec p ∧
    get_power_color (11 / 20) = "#7ED321".toList ∧
    get_power_color (3 / 4) = "#F5A623".toList ∧
    get_power_color (9 / 10) = "#D0021B".toList ∧
    get_power_color (21 / 20) = "#9013FE".toList ∧
    get_power_color (6 / 5) = "#BD10E0".toList ∧
    (2 ≤ p → get_power_color p = DEFAULT_HIGH_POWER_COLOR) := by
  have hmain : get_power_color p = classifySpec p := by
    unfold get_power_color classifySpec POWER_ZONES
    by_cases h1 : p < 11 / 20
    · simp [List.find?, hp, h1]
    · by_cases h2 : p < 3 / 4
      · simp [List.find?, hp, h1, h2, le_of_not_lt h1]
      · by_cases h3 : p < 9 / 10
        · simp [List.find?, hp, h1, h2, h3, le_of_not_lt h2]
        · by_cases h4 : p < 21 / 20
          · simp [List.find?, hp, h1, h2, h3, h4, le_of_not_lt h3]
          · by_cases h5 : p < 6 / 5
            · simp [List.find?, hp, h1, h2, h3, h4, h5, le_of_not_lt h4]
            · by_cases h6 : p < 2
              · simp [List.find?, hp, h1, h2, h3, h4, h5, h6, le_of_not_lt h5]
              · simp [List.find?, hp, h1, h2, h3, h4, h5, h6]
  refine ⟨hmain,
    by norm_num [get_power_color, POWER_ZONES, List.find?],
    by norm_num [get_power_color, POWER_ZONES, List.find?],
    by norm_num [get_power_color, POWER_ZONES, List.find?],
    by norm_num [get_power_color, POWER_ZONES, List.find?],
    by norm_num [get_power_color, POWER_ZONES, List.find?], ?_⟩
  intro h2p
  rw [hmain]
  have l1 : ¬ p < 11 / 20 := by linarith
  have l2 : ¬ p < 3 / 4 := by linarith
  have l3 : ¬ p < 9 / 10 := by linarith
  have l4 : ¬ p < 21 / 20 := by linarith
  have l5 : ¬ p < 6 / 5 := by linarith
  have l6 : ¬ p < 2 := by linarith
  simp [classifySpec, l1, l2, l3, l4, l5, l6]

/-- Witness for C6 at the boundary power 0.55 and at 2.5. -/
theorem c6_zone_classification_witness :
    get_power_color (11 / 20) = classifySpec (11 / 20) ∧
    get_power_color ((5 : ℚ) / 2) = DEFAULT_HIGH_POWER_COLOR := by
  constructor
  · exact (c6_zone_classification (11 / 20) (by norm_num)).1
  · exact (c6_zone_classification ((5 : ℚ) / 2) (by norm_num)).2.2.2.2.2.2 (by norm_num)

/-! ## C5: interval expansion -/

/-- Expanding a two-element block once per repetition yields `2 * n`
entries. -/
lemma length_flatMap_pair {α : Type} (n : ℕ) (a b : α) :
    ((List.range n).flatMap (fun _ => [a, b])).length = 2 * n := by
  induction n with
  | zero => rfl
  | succ m ih =>
    rw [List.range_succ, List.flatMap_append, List.length_append, ih]
    simp [Nat.mul_succ]

/-- C5: a recognized repeat line expands in `parse_workout_segments` to
exactly `2 * n` segments — `n` repetitions of one `interval_on` segment
(on-duration, on-power, optional cadence) followed by one `interval_off`
segment with the same duration, power `DEFAULT_INTERVAL_OFF_POWER = 0.55`,
and no cadence (the on-cadence is never inherited). -/
theorem c5_interval_expansion (l dm : Str) (n : ℕ)
    (hd : durationSearch l = some dm)
    (hfr : containsSub kwFreeRide (lowerStr l) = false)
    (hp : (powerFtpSearch l).isSome = true)
    (hrep : repeatSearch l = some n) :
    segmentsOfLine l =
      (List.range n).flatMap (fun _ =>
        [Segment.interval_on (parse_duration_to_seconds dm)
           (parse_power_percentage l) (parse_cadence l),
         Segment.interval_off (parse_duration_to_seconds dm) (11 / 20) none]) ∧
    (segmentsOfLine l).length = 2 * n := by
  obtain ⟨k, hk⟩ := Option.isSome_iff_exists.mp hp
  have hne : l.isEmpty = false := isEmpty_false_of_searchAux hd
  have hmain : segmentsOfLine l =
      (List.range n).flatMap (fun _ =>
        [Segment.interval_on (parse_duration_to_seconds dm)
           (parse_power_percentage l) (parse_cadence l),
         Segment.interval_off (parse_duration_to_seconds dm) (11 / 20) none]) := by
    simp [segmentsOfLine, hne, hd, hfr, hk, hrep]
  exact ⟨hmain, by rw [hmain, length_flatMap_pair]⟩

/-- Witness for C5 at the line `"4x 30sec @ 105rpm, 85% FTP"`: 8 segments,
4 on/off pairs. -/
theorem c5_interval_expansion_witness :
    segmentsOfLine ("4x 30sec @ 105rpm, 85% FTP".toList) =
      (List.range 4).flatMap (fun _ =>
        [Segment.interval_on
           (parse_duration_to_seconds ("30sec".toList))
           (parse_power_percentage ("4x 30sec @ 105rpm, 85% FTP".toList))
           (parse_cadence ("4x 30sec @ 105rpm, 85% FTP".toList)),
         Segment.interval_off (parse_duration_to_seconds ("30sec".toList)) (11 / 20) none]) ∧
    (segmentsOfLine ("4x 30sec @ 105rpm, 85% FTP".toList)).length = 2 * 4 :=
  c5_interval_expansion ("4x 30sec @ 105rpm, 85% FTP".toList) ("30sec".toList) 4
    (by decide) (by decide) (by decide) (by decide)

/-! ## C7: free-ride precedence -/

/-- C7: any line with a duration token containing the phrase `"free ride"`
(case-insensitively) classifies as exactly one `free_ride` segment with the
fixed display power `FREE_RIDE_VISUALIZATION_POWER = 0.65` in the
visualization model, and as one `FreeRide` element in the training file —
regardless of any percentage, `from`/`to`, or repeat text on the line, since
the free-ride check precedes those classifications in both paths. -/
theorem c7_free_ride_precedence (l dm : Str)
    (hd : durationSearch l = some dm)
    (hfr : containsSub kwFreeRide (lowerStr l) = true) :
    segmentsOfLine l =
      [Segment.free_ride (parse_duration_to_seconds dm) (13 / 20) (parse_cadence l)] ∧
    process_workout_line l =
      some (ZwoElement.freeRide (parse_duration_to_seconds dm) (parse_cadence l)) := by
  have hne : l.isEmpty = false := isEmpty_false_of_searchAux hd
  constructor
  · simp [segmentsOfLine, hne, hd, hfr]
  · simp [process_workout_line, hne, hd, hfr]

/-- Witness for C7 at a line that also contains percentage, ramp, and repeat
markers, showing the free-ride precedence concretely. -/
theorem c7_free_ride_precedence_witness :
    segmentsOfLine ("4x 10min free ride from 50% to 80% FTP".toList) =
      [Segment.free_ride 600 (13 / 20) none] := by
  have h := (c7_free_ride_precedence ("4x 10min free ride from 50% to 80% FTP".toList)
    ("10min".toList) (by decide) (by decide)).1
  rw [h]
  rfl

/-! ## C9: a bare percentage without FTP does not classify -/

/-- C9: a non-free-ride line whose text has no `(\d+)%\s*FTP` match — for
example a bare percentage with no adjacent `FTP` — produces no training-file
element and no visualization segment, even when a duration token is
present. -/
theorem c9_percentage_requires_ftp (l dm : Str)
    (hd : durationSearch l = some dm)
    (hfr : containsSub kwFreeRide (lowerStr l) = false)
    (hp : powerFtpSearch l = none) :
    process_workout_line l = none ∧ segmentsOfLine l = [] := by
  have hne : l.isEmpty = false := isEmpty_false_of_searchAux hd
  constructor
  · simp [process_workout_line, hne, hd, hfr, hp]
  · simp [segmentsOfLine, hne, hd, hfr, hp]

/-- Witness for C9 at `"5min @ 85%"`: a duration token and a bare percentage
are present, yet nothing is produced. -/
theorem c9_percentage_requires_ftp_witness :
    (percentageSearch ("5min @ 85%".toList) = some 85) ∧
    process_workout_line ("5min @ 85%".toList) = none ∧
    segmentsOfLine ("5min @ 85%".toList) = [] :=
  ⟨by decide, c9_percentage_requires_ftp ("5min @ 85%".toList) ("5min".toList)
    (by decide) (by decide) (by decide)⟩

/-! ## C2: malformed ramps -/

/-- C2 (counterexample): on the line `"5min from low to 80% FTP"` — which has
a duration token, a `% FTP` token, both words `from` and `to`, and a missing
`from <number>` match — the training-file path does **not** fail silently:
`process_workout_line` falls through the ramp block and returns a
`SteadyState` element, contradicting the claim that no markup element is
produced.  (The visualization path does append nothing.) -/
theorem c2_malformed_ramp_counterexample :
    containsSub kwFrom ("5min from low to 80% FTP".toList) = true ∧
    containsSub kwTo ("5min from low to 80% FTP".toList) = true ∧
    fromPowerSearch ("5min from low to 80% FTP".toList) = none ∧
    process_workout_line ("5min from low to 80% FTP".toList) =
      some (ZwoElement.steady 300 (((80 : ℕ) : ℚ) / 100) none) ∧
    process_workout_line ("5min from low to 80% FTP".toList) ≠ none ∧
    parse_workout_segments [("5min from low to 80% FTP".toList)] = [] := by
  have e : process_workout_line ("5min from low to 80% FTP".toList) =
      some (ZwoElement.steady 300 (((80 : ℕ) : ℚ) / 100) none) := rfl
  exact ⟨by decide, by decide, by decide, e, by rw [e]; simp, rfl⟩

/-- C2 (amended): for a non-free-ride, non-repeat line with a duration token,
a `% FTP` token, both words `from` and `to`, and one of the two ramp numeral
matches missing, the visualization path appends no segment, but the
training-file path emits a `SteadyState` element built from the line's first
bare percentage instead of returning `None`. -/
theorem c2_malformed_ramp_amended (l dm : Str)
    (hd : durationSearch l = some dm)
    (hfr : containsSub kwFreeRide (lowerStr l) = false)
    (hp : (powerFtpSearch l).isSome = true)
    (hfrom : containsSub kwFrom l = true) (hto : containsSub kwTo l = true)
    (hmiss : fromPowerSearch l = none ∨ toPowerSearch l = none)
    (hrep : repeatSearch l = none) :
    segmentsOfLine l = [] ∧
    process_workout_line l =
      some (ZwoElement.steady (parse_duration_to_seconds dm)
        (parse_power_percentage l) (parse_cadence l)) := by
  obtain ⟨k, hk⟩ := Option.isSome_iff_exists.mp hp
  have hne : l.isEmpty = false := isEmpty_false_of_searchAux hd
  have hramp : rampAttempt l (parse_duration_to_seconds dm) (parse_cadence l) = none := by
    rcases hmiss with hm | hm
    · cases hto2 : toPowerSearch l <;> simp [rampAttempt, hfrom, hto, hm, hto2]
    · cases hfrom2 : fromPowerSearch l <;> simp [rampAttempt, hfrom, hto, hm, hfrom2]
  constructor
  · rcases hmiss with hm | hm
    · cases hto2 : toPowerSearch l <;>
        simp [segmentsOfLine, hne, hd, hfr, hk, hrep, hfrom, hto, hm, hto2]
    · cases hfrom2 : fromPowerSearch l <;>
        simp [segmentsOfLine, hne, hd, hfr, hk, hrep, hfrom, hto, hm, hfrom2]
  · simp [process_workout_line, hne, hd, hfr, hk, hramp, hrep]

/-- Witness for C2's amended statement at `"5min from low to 80% FTP"`. -/
theorem c2_malformed_ramp_amended_witness :
    segmentsOfLine ("5min from low to 80% FTP".toList) = [] ∧
    process_workout_line ("5min from low to 80% FTP".toList) =
      some (ZwoElement.steady
        (parse_duration_to_seconds ("5min".toList))
        (parse_power_percentage ("5min from low to 80% FTP".toList))
        (parse_cadence ("5min from low to 80% FTP".toList))) :=
  c2_malformed_ramp_amended ("5min from low to 80% FTP".toList) ("5min".toList)
    (by decide) (by decide) (by decide) (by decide) (by decide)
    (Or.inl (by decide)) (by decide)

/-! ## C10: the power actually used is the first bare percentage -/

/-- A successful `(\d+)%\s*FTP` match at a position is also a successful
`(\d+)%` match at that position. -/
lemma matchPercentage_isSome_of_matchPowerFtp {s : Str}
    (h : (matchPowerFtp s).isSome = true) : (matchPercentage s).isSome = true := by
  unfold matchPowerFtp at h
  unfold matchPercentage
  cases hmd : matchDigits s with
  | none => rw [hmd] at h; simp at h
  | some p =>
    obtain ⟨ds, rest⟩ := p
    simp only [hmd] at h ⊢
    cases rest with
    | nil => simp at h
    | cons r rtl =>
      by_cases hr : r = '%'
      · subst hr; simp
      · exfalso
        split at h
        · rename_i r2 heq
          simp_all
        · simp at h

/-- If one matcher implies another position-wise, a successful search for the
first implies a successful search for the second. -/
lemma searchAux_isSome_mono {α β : Type} (m1 : Str → Option α) (m2 : Str → Option β)
    (hm : ∀ s, (m1 s).isSome = true → (m2 s).isSome = true) :
    ∀ l : Str, (searchAux m1 l).isSome = true → (searchAux m2 l).isSome = true := by
  intro l
  induction l with
  | nil => simp [searchAux]
  | cons c tl ih =>
    intro h
    unfold searchAux at h ⊢
    cases h2 : m2 (c :: tl) with
    | some b => simp
    | none =>
      simp only [h2]
      cases h1 : m1 (c :: tl) with
      | some a => have := hm (c :: tl); simp [h1, h2] at this
      | none => rw [h1] at h; exact ih h

/-- C10: on a steady or repeat line the power that reaches the emitted
element is the line's first `(\d+)%` occurrence divided by 100 (via
`parse_power_percentage`), which exists whenever the `% FTP` gate matched but
need not be the percentage adjacent to `FTP`; concretely, on
`"5min @ 50%, then 85% FTP"` the emitted power is 0.50 while the
FTP-adjacent percentage is 85. -/
theorem c10_first_percentage_used (l dm : Str)
    (hd : durationSearch l = some dm)
    (hfr : containsSub kwFreeRide (lowerStr l) = false)
    (hp : (powerFtpSearch l).isSome = true)
    (hnr : containsSub kwFrom l = false ∨ containsSub kwTo l = false) :
    (∃ k, percentageSearch l = some k ∧ parse_power_percentage l = (k : ℚ) / 100 ∧
      process_workout_line l = some (match repeatSearch l with
        | some n => ZwoElement.intervals n (parse_duration_to_seconds dm)
            (parse_duration_to_seconds dm) ((k : ℚ) / 100) (11 / 20) (parse_cadence l)
        | none => ZwoElement.steady (parse_duration_to_seconds dm) ((k : ℚ) / 100)
            (parse_cadence l))) ∧
    (process_workout_line ("5min @ 50%, then 85% FTP".toList) =
        some (ZwoElement.steady 300 (((50 : ℕ) : ℚ) / 100) none) ∧
      powerFtpSearch ("5min @ 50%, then 85% FTP".toList) = some 85 ∧
      (((50 : ℕ) : ℚ) / 100) ≠ (((85 : ℕ) : ℚ) / 100)) := by
  constructor
  · obtain ⟨kp, hkp⟩ := Option.isSome_iff_exists.mp
      (searchAux_isSome_mono matchPowerFtp matchPercentage
        (fun _ h => matchPercentage_isSome_of_matchPowerFtp h) l hp)
    have hne : l.isEmpty = false := isEmpty_false_of_searchAux hd
    obtain ⟨k, hk⟩ := Option.isSome_iff_exists.mp hp
    have hramp : rampAttempt l (parse_duration_to_seconds dm) (parse_cadence l) = none := by
      rcases hnr with hm | hm <;> simp [rampAttempt, hm]
    refine ⟨kp, hkp, by simp [parse_power_percentage, percentageSearch, hkp], ?_⟩
    cases hrep : repeatSearch l with
    | some n =>
      simp [process_workout_line, hne, hd, hfr, hk, hramp, hrep,
        parse_power_percentage, percentageSearch, hkp]
    | none =>
      simp [process_workout_line, hne, hd, hfr, hk, hramp, hrep,
        parse_power_percentage, percentageSearch, hkp]
  · exact ⟨rfl, by decide, by norm_num⟩

/-- Witness for C10 at the two-percentage line. -/
theorem c10_first_percentage_used_witness :
    percentageSearch ("5min @ 50%, then 85% FTP".toList) = some 50 ∧
    parse_power_percentage ("5min @ 50%, then 85% FTP".toList) = ((50 : ℕ) : ℚ) / 100 := by
  obtain ⟨⟨k, hk1, hk2, _⟩, _⟩ :=
    c10_first_percentage_used ("5min @ 50%, then 85% FTP".toList) ("5min".toList)
      (by decide) (by decide) (by decide) (Or.inl (by decide))
  have hk : k = 50 := by
    have : percentageSearch ("5min @ 50%, then 85% FTP".toList) = some 50 := by decide
    rw [this] at hk1
    exact (Option.some.injEq _ _).mp hk1.symm
  subst hk
  exact ⟨hk1, hk2⟩

/-! ## C3: the duration invariant of the canonical sequence -/

/-- `isPrefixOf` is reflexive. -/
lemma isPrefixOf_self (l : Str) : l.isPrefixOf l = true := by
  induction l with
  | nil => rfl
  | cons c tl ih => simp [List.isPrefixOf, ih]

/-- A string contains itself as a substring after any prefix. -/
lemma containsSub_append_self (n pre : Str) : containsSub n (pre ++ n) = true := by
  induction pre with
  | nil =>
    cases n with
    | nil => rfl
    | cons c tl => simp [containsSub, isPrefixOf_self]
  | cons p ptl ih => simp [containsSub, ih]

/-- A needle whose first character never occurs in the haystack is not a
substring of it. -/
lemma containsSub_false_of_head_absent (c0 : Char) (ntl hay : Str)
    (h : ∀ c ∈ hay, c ≠ c0) : containsSub (c0 :: ntl) hay = false := by
  induction hay with
  | nil => rfl
  | cons c tl ih =>
    simp only [containsSub, List.isPrefixOf, Bool.or_eq_false_iff]
    constructor
    · have hc : c ≠ c0 := fun hc => h c (by simp [hc]) hc
      simp [beq_eq_false_iff_ne, Ne]
      intro hc2
      exact absurd hc2.symm hc
    · exact ih (fun d hd => h d (List.mem_cons_of_mem c hd))

/-- `takeWhile` swallows exactly a block that satisfies the predicate when
what follows starts by failing it. -/
lemma takeWhile_append_all {p : Char → Bool} (ds u : Str)
    (h : ∀ c ∈ ds, p c = true) (hu : u.takeWhile p = []) :
    (ds ++ u).takeWhile p = ds := by
  induction ds with
  | nil => simpa using hu
  | cons d dl ih =>
    have hd : p d = true := h d (by simp)
    simp only [List.cons_append, List.takeWhile_cons, hd, if_true]
    rw [ih (fun c hc => h c (List.mem_cons_of_mem d hc))]

/-- `dropWhile` counterpart of `takeWhile_append_all`. -/
lemma dropWhile_append_all {p : Char → Bool} (ds u : Str)
    (h : ∀ c ∈ ds, p c = true) (hu : u.takeWhile p = []) :
    (ds ++ u).dropWhile p = u := by
  induction ds with
  | nil =>
    cases u with
    | nil => rfl
    | cons x xs =>
      simp only [List.nil_append, List.dropWhile_cons]
      by_cases hx : p x = true
      · rw [List.takeWhile_cons, if_pos hx] at hu
        simp at hu
      · simp [hx]
  | cons d dl ih =>
    have hd : p d = true := h d (by simp)
    simp only [List.cons_append, List.dropWhile_cons, hd, if_true]
    exact ih (fun c hc => h c (List.mem_cons_of_mem d hc))

/-- Any string the duration regex matched is a non-empty digit run followed
by `"min"` or `"sec"`. -/
lemma durationSearch_shape {l dm : Str} (hd : durationSearch l = some dm) :
    ∃ ds u, dm = ds ++ u ∧ ds ≠ [] ∧ (∀ c ∈ ds, isDigitCh c = true) ∧
      (u = kwMin ∨ u = kwSec) := by
  unfold durationSearch at hd
  induction l with
  | nil => simp [searchAux] at hd
  | cons c tl ih =>
    unfold searchAux at hd
    cases hm : matchDuration (c :: tl) with
    | some d0 =>
      rw [hm] at hd
      simp only [Option.some.injEq] at hd
      subst hd
      unfold matchDuration at hm
      cases hmd : matchDigits (c :: tl) with
      | none => rw [hmd] at hm; simp at hm
      | some p =>
        obtain ⟨ds, rest⟩ := p
        simp only [hmd] at hm
        have hds : ds = (c :: tl).takeWhile isDigitCh ∧ ds ≠ [] := by
          simp only [matchDigits] at hmd
          split at hmd
          · simp at hmd
          · rename_i hne
            simp only [Option.some.injEq, Prod.mk.injEq] at hmd
            refine ⟨hmd.1.symm, ?_⟩
            rw [hmd.1] at hne
            simpa using hne
        have hdig : ∀ x ∈ ds, isDigitCh x = true := by
          rw [hds.1]
          intro x hx
          exact List.mem_takeWhile_imp hx
        split at hm
        · simp only [Option.some.injEq] at hm
          exact ⟨ds, kwMin, hm.symm, hds.2, hdig, Or.inl rfl⟩
        · split at hm
          · simp only [Option.some.injEq] at hm
            exact ⟨ds, kwSec, hm.symm, hds.2, hdig, Or.inr rfl⟩
          · simp at hm
    | none =>
      rw [hm] at hd
      exact ih hd

/-- `\d+` anchored at a digit run followed by non-digit text matches exactly
that run. -/
lemma matchDigits_append (ds u : Str) (hne : ds ≠ [])
    (hdig : ∀ c ∈ ds, isDigitCh c = true) (hu : u.takeWhile isDigitCh = []) :
    matchDigits (ds ++ u) = some (ds, u) := by
  have htw := takeWhile_append_all ds u hdig hu
  have hdw := dropWhile_append_all ds u hdig hu
  unfold matchDigits
  simp only [htw, hdw]
  cases ds with
  | nil => exact absurd rfl hne
  | cons d dl => simp

/-- Searching `\d+` in a digit run followed by non-digit text finds exactly
the run. -/
lemma searchAux_matchDigits_append (ds u : Str) (hne : ds ≠ [])
    (hdig : ∀ c ∈ ds, isDigitCh c = true) (hu : u.takeWhile isDigitCh = []) :
    searchAux matchDigits (ds ++ u) = some (ds, u) := by
  have hmd := matchDigits_append ds u hne hdig hu
  cases ds with
  | nil => exact absurd rfl hne
  | cons d dl =>
    rw [List.cons_append] at hmd ⊢
    unfold searchAux
    rw [hmd]

/-- Evaluating `parse_duration_to_seconds` and `durTokenValue` on a matched
duration token: the numeral is scaled by 60 for minutes and taken as is for
seconds. -/
lemma parse_duration_token (ds : Str) (hne : ds ≠ [])
    (hdig : ∀ c ∈ ds, isDigitCh c = true) :
    parse_duration_to_seconds (ds ++ kwMin) = digitsToNat ds * 60 ∧
    parse_duration_to_seconds (ds ++ kwSec) = digitsToNat ds ∧
    durTokenValue (ds ++ kwMin) = digitsToNat ds ∧
    durTokenValue (ds ++ kwSec) = digitsToNat ds := by
  have hdigm : ∀ c ∈ ds, c ≠ 'm' := by
    intro c hc he
    have := hdig c hc
    rw [he] at this
    simp [isDigitCh] at this
  have hnocm : containsSub kwMin (ds ++ kwSec) = false := by
    have e : kwMin = 'm' :: ("in".toList) := rfl
    rw [e]
    apply containsSub_false_of_head_absent
    intro c hc
    rcases List.mem_append.mp hc with h | h
    · exact hdigm c h
    · have hc3 : c = 's' ∨ c = 'e' ∨ c = 'c' := by simpa [kwSec] using h
      rcases hc3 with rfl | rfl | rfl <;> decide
  refine ⟨?_, ?_, ?_, ?_⟩
  · unfold parse_duration_to_seconds
    rw [containsSub_append_self kwMin ds,
      searchAux_matchDigits_append ds kwMin hne hdig rfl]
    simp
  · unfold parse_duration_to_seconds
    rw [hnocm]
    rw [containsSub_append_self kwSec ds,
      searchAux_matchDigits_append ds kwSec hne hdig rfl]
    simp
  · unfold durTokenValue
    rw [takeWhile_append_all ds kwMin hdig rfl]
  · unfold durTokenValue
    rw [takeWhile_append_all ds kwSec hdig rfl]

/-- C3 (counterexample): the line `"0min @ 85% FTP"` has a matched duration
token whose numeral is zero, and `parse_workout_segments` emits for it a
steady segment whose duration is 0 — a zero-duration segment does reach the
canonical sequence, contradicting the claimed strict invariant. -/
theorem c3_zero_duration_counterexample :
    durationSearch ("0min @ 85% FTP".toList) = some ("0min".toList) ∧
    parse_workout_segments [("0min @ 85% FTP".toList)] =
      [Segment.steady 0 (((85 : ℕ) : ℚ) / 100) none] ∧
    Segment.durationOf (Segment.steady 0 (((85 : ℕ) : ℚ) / 100) none) = 0 :=
  ⟨by decide, rfl, rfl⟩

/-- C3 (amended): a line without a duration match is dropped (no segment at
all); every segment that does reach the canonical sequence carries exactly
the parsed value of the line's first duration token, and that value is
positive whenever the token's numeral is non-zero — it is zero only for an
explicit zero numeral such as `"0min"`. -/
theorem c3_duration_invariant_amended (l : Str) :
    (durationSearch l = none → segmentsOfLine l = []) ∧
    (∀ s ∈ segmentsOfLine l, ∃ dm, durationSearch l = some dm ∧
      Segment.durationOf s = parse_duration_to_seconds dm ∧
      (0 < durTokenValue dm → 0 < Segment.durationOf s)) := by
  constructor
  · intro h
    cases hl : l.isEmpty <;> simp [segmentsOfLine, hl, h]
  · intro s hs
    cases hd : durationSearch l with
    | none =>
      exfalso
      have he : segmentsOfLine l = [] := by
        cases hl : l.isEmpty <;> simp [segmentsOfLine, hl, hd]
      rw [he] at hs
      simp at hs
    | some dm =>
      have hval : Segment.durationOf s = parse_duration_to_seconds dm := by
        have hne : l.isEmpty = false := isEmpty_false_of_searchAux hd
        simp only [segmentsOfLine, hne, Bool.false_eq_true, if_false, hd] at hs
        split at hs
        · simp at hs
          subst hs
          rfl
        · split at hs
          · simp at hs
          · split at hs
            · simp [List.mem_flatMap] at hs
              obtain ⟨-, hs | hs⟩ := hs <;> (subst hs; rfl)
            · split at hs
              · split at hs
                · simp at hs
                  subst hs
                  rfl
                · simp at hs
              · simp at hs
                subst hs
                rfl
      refine ⟨dm, rfl, hval, ?_⟩
      intro hpos
      obtain ⟨ds, u, hdm, hdsne, hdig, hu⟩ := durationSearch_shape hd
      obtain ⟨hmin, hsec, htmin, htsec⟩ := parse_duration_token ds hdsne hdig
      rw [hval]
      subst hdm
      rcases hu with rfl | rfl
      · rw [htmin] at hpos
        rw [hmin]
        omega
      · rw [htsec] at hpos
        rw [hsec]
        omega

/-- Witness for C3's amended statement: a line with no duration token yields
no segment, and the steady segment of `"3min @ 85% FTP"` carries the parsed
duration of its token with positivity. -/
theorem c3_duration_invariant_amended_witness :
    segmentsOfLine ("just a note to self".toList) = [] ∧
    (∃ dm, durationSearch ("3min @ 85% FTP".toList) = some dm ∧
      Segment.durationOf (Segment.steady 180 (((85 : ℕ) : ℚ) / 100) none) =
        parse_duration_to_seconds dm ∧
      (0 < durTokenValue dm →
        0 < Segment.durationOf (Segment.steady 180 (((85 : ℕ) : ℚ) / 100) none))) := by
  constructor
  · exact (c3_duration_invariant_amended ("just a note to self".toList)).1 (by decide)
  · refine (c3_duration_invariant_amended ("3min @ 85% FTP".toList)).2 _ ?_
    have e : segmentsOfLine ("3min @ 85% FTP".toList) =
        [Segment.steady 180 (((85 : ℕ) : ℚ) / 100) none] := rfl
    rw [e]
    exact List.mem_singleton.mpr rfl

end ConvertTxtToZwo
